import Mathlib

/-!
Verification development for the JHN Finance AI chat widget.

The definitions below are a shallow embedding of the repository's two chat
components: the live voice session (the `Chatbot` component: its `onmessage`
callback with transcription accumulation, audio-fragment scheduling and
interruption handling, its `cleanup`/`stopSession` teardown, its
`onaudioprocess` 16-bit quantization, and its `handleDataSubmission`) and the
text chat (`ChatbotText`: `sendMessage` and `handleDataSubmission`).
JS numbers used as audio-clock times and durations are modelled as rationals;
JS strings as `String`; React refs as plain state fields; React `useState`
values as fields updated with last-write-wins semantics once a handler has
settled, with a dedicated small model (`ReactBool`) for the one place where
the timing of a `setState` relative to a same-task read matters.
-/

namespace JHN

/-- Speaker tag of a transcript entry, from `types.ts`. -/
inductive Speaker
  | user
  | bot
  deriving DecidableEq

/-- Session status enum, from `types.ts` (`ChatStatus`). -/
inductive ChatStatus
  | IDLE
  | CONNECTING
  | LISTENING
  | PROCESSING
  | SPEAKING
  | ERROR
  deriving DecidableEq

/-- One transcript entry, from `types.ts` (`TranscriptionEntry`). -/
structure TranscriptionEntry where
  speaker : Speaker
  text : String
  isFinal : Bool
  deriving DecidableEq

/-- Boolean list-infix test used to model JS `String.prototype.includes`:
`hasSub pat l` is true when `pat` occurs as a contiguous sublist of `l`. -/
def hasSub (pat : List Char) : List Char → Bool
  | [] => pat.isEmpty
  | c :: cs => pat.isPrefixOf (c :: cs) || hasSub pat cs

/-- JS `s.includes(pat)`. -/
def strContains (s pat : String) : Bool :=
  hasSub pat.data s.data

/-- JS `s.trim()`: strip leading and trailing whitespace. -/
def strTrim (s : String) : String :=
  ⟨((s.data.dropWhile Char.isWhitespace).reverse.dropWhile Char.isWhitespace).reverse⟩

/-- JS `s.toLowerCase()`. -/
def strLower (s : String) : String :=
  ⟨s.data.map Char.toLower⟩

/-- State owned by the voice session message handler: the transcript list and
the two accumulator refs (`currentInputTranscriptionRef`,
`currentOutputTranscriptionRef`), the playback clock ref
(`nextAudioStartTimeRef`), the set of active scheduled sources
(`audioSourcesRef`, recorded as their scheduled playback intervals in
scheduling order), and the status state. -/
structure SessionState where
  transcription : List TranscriptionEntry
  inAcc : String
  outAcc : String
  nextStartTime : ℚ
  sources : List (ℚ × ℚ)
  status : ChatStatus
  deriving DecidableEq

/-- Fresh session-handler state with playback clock `t0` (the code resets the
clock to 0 on start). -/
def initSession (t0 : ℚ) : SessionState :=
  ⟨[], "", "", t0, [], ChatStatus.LISTENING⟩

/-- One inbound `LiveServerMessage` as consumed by `onmessage`: optional
input/output transcription deltas, the turn-complete flag, an optional
synthesized-audio payload (represented by the duration of the decoded
`AudioBuffer`), and the interruption flag. -/
structure LiveMsg where
  inputTranscription : Option String
  outputTranscription : Option String
  turnComplete : Bool
  audioDuration : Option ℚ
  interrupted : Bool
  deriving DecidableEq

/-- The transcript update shared by both transcription branches of
`onmessage`: if the last entry belongs to the same speaker and is not final it
is replaced in place with the accumulator text, otherwise a new non-final
entry carrying the accumulator text is appended. -/
def amendOrAppend (sp : Speaker) (txt : String)
    (prev : List TranscriptionEntry) : List TranscriptionEntry :=
  match prev.getLast? with
  | some last =>
    if last.speaker = sp ∧ last.isFinal = false then
      prev.dropLast ++ [{ last with text := txt }]
    else
      prev ++ [⟨sp, txt, false⟩]
  | none => prev ++ [⟨sp, txt, false⟩]

/-- `onmessage` branch for `serverContent.inputTranscription`. -/
def handleInput (t : String) (s : SessionState) : SessionState :=
  { s with inAcc := s.inAcc ++ t
           transcription := amendOrAppend Speaker.user (s.inAcc ++ t) s.transcription }

/-- `onmessage` branch for `serverContent.outputTranscription`. -/
def handleOutput (t : String) (s : SessionState) : SessionState :=
  { s with outAcc := s.outAcc ++ t
           transcription := amendOrAppend Speaker.bot (s.outAcc ++ t) s.transcription }

/-- `onmessage` branch for `serverContent.turnComplete`: mark every entry
final and reset both accumulators. -/
def handleTurnComplete (s : SessionState) : SessionState :=
  { s with transcription := s.transcription.map (fun e => { e with isFinal := true })
           inAcc := ""
           outAcc := "" }

/-- `onmessage` branch for an inline audio payload: the fragment is scheduled
at `max(audioCtx.currentTime, nextAudioStartTimeRef.current)`, the clock is
advanced past it, and the source is tracked in the active set. -/
def handleAudio (now dur : ℚ) (s : SessionState) : SessionState :=
  { s with status := ChatStatus.SPEAKING
           nextStartTime := max now s.nextStartTime + dur
           sources := s.sources ++ [(max now s.nextStartTime, max now s.nextStartTime + dur)] }

/-- `onmessage` branch for `serverContent.interrupted`: stop every active
source, clear the active set, reset the clock to 0. -/
def handleInterrupted (s : SessionState) : SessionState :=
  { s with sources := [], nextStartTime := 0 }

/-- Stage 1 of `onmessage`: input transcription, when present. -/
def applyInput (m : LiveMsg) (s : SessionState) : SessionState :=
  match m.inputTranscription with
  | some t => handleInput t s
  | none => s

/-- Stage 2 of `onmessage`: output transcription, when present. -/
def applyOutput (m : LiveMsg) (s : SessionState) : SessionState :=
  match m.outputTranscription with
  | some t => handleOutput t s
  | none => s

/-- Stage 3 of `onmessage`: turn completion, when signalled. -/
def applyTurn (m : LiveMsg) (s : SessionState) : SessionState :=
  if m.turnComplete then handleTurnComplete s else s

/-- Stage 4 of `onmessage`: audio payload, when present; `now` is the value of
`audioCtx.currentTime` at processing time. -/
def applyAudio (now : ℚ) (m : LiveMsg) (s : SessionState) : SessionState :=
  match m.audioDuration with
  | some dur => handleAudio now dur s
  | none => s

/-- Stage 5 of `onmessage`: interruption, when signalled. -/
def applyInterrupted (m : LiveMsg) (s : SessionState) : SessionState :=
  if m.interrupted then handleInterrupted s else s

/-- The `onmessage` callback of the voice session: the five optional payload
fields are processed in the source's order. -/
def onmessage (now : ℚ) (m : LiveMsg) (s : SessionState) : SessionState :=
  applyInterrupted m (applyAudio now m (applyTurn m (applyOutput m (applyInput m s))))

/-- Message carrying only a transcription delta for the given speaker. -/
def deltaMsg (sp : Speaker) (t : String) : LiveMsg :=
  match sp with
  | Speaker.user => ⟨some t, none, false, none, false⟩
  | Speaker.bot => ⟨none, some t, false, none, false⟩

/-- Message carrying only a synthesized-audio payload of duration `dur`. -/
def audioMsg (dur : ℚ) : LiveMsg :=
  ⟨none, none, false, some dur, false⟩

/-- Message carrying only the turn-complete signal. -/
def turnMsg : LiveMsg :=
  ⟨none, none, true, none, false⟩

/-- Message carrying only the interruption signal. -/
def interruptMsg : LiveMsg :=
  ⟨none, none, false, none, true⟩

/-- Handle a sequence of inbound messages in delivery order; each message is
paired with the playback-clock reading at its processing time. -/
def processMsgs (s : SessionState) (ms : List (ℚ × LiveMsg)) : SessionState :=
  ms.foldl (fun s m => onmessage m.1 m.2 s) s

/-- Handle a sequence of audio-only messages in delivery order;
each fragment is a pair `(now, dur)` of the clock reading at processing time
and the decoded buffer duration. -/
def processAudioMsgs (s : SessionState) (frags : List (ℚ × ℚ)) : SessionState :=
  frags.foldl (fun s p => onmessage p.1 (audioMsg p.2) s) s

/-- Handle a sequence of transcription-delta messages in delivery order. -/
def processDeltaMsgs (s : SessionState) (ds : List (Speaker × String)) : SessionState :=
  ds.foldl (fun s d => onmessage 0 (deltaMsg d.1 d.2) s) s

/-- The playback intervals produced by scheduling a list of fragments in order
starting from clock value `st`: each fragment starts at the later of its
processing-time `now` and the end of the previously scheduled fragment. -/
def scheduleFrags (st : ℚ) : List (ℚ × ℚ) → List (ℚ × ℚ)
  | [] => []
  | (now, dur) :: rest =>
    (max now st, max now st + dur) :: scheduleFrags (max now st + dur) rest

/-- Accumulator ref for the given speaker. -/
def accOf : Speaker → SessionState → String
  | Speaker.user, s => s.inAcc
  | Speaker.bot, s => s.outAcc

/-- Delta handling for a given speaker (the common shape of `handleInput` and
`handleOutput`). -/
def handleDelta (sp : Speaker) (t : String) (s : SessionState) : SessionState :=
  match sp with
  | Speaker.user => handleInput t s
  | Speaker.bot => handleOutput t s

/-- Fold of `handleDelta` over a delta sequence. -/
def processDeltas (s : SessionState) (ds : List (Speaker × String)) : SessionState :=
  ds.foldl (fun s d => handleDelta d.1 d.2 s) s

/-- Text of the last transcript entry belonging to the given speaker, when one
exists. -/
def lastTextOf (sp : Speaker) (l : List TranscriptionEntry) : Option String :=
  ((l.filter (fun e => e.speaker = sp)).getLast?).map (fun e => e.text)

/-- Concatenation, in arrival order, of the deltas belonging to the given
speaker. -/
def concatFor (sp : Speaker) : List (Speaker × String) → String
  | [] => ""
  | (sp2, d) :: rest => if sp2 = sp then d ++ concatFor sp rest else concatFor sp rest

/-- Modelled from the claim wording for comparison with the source: amend in
place the last non-final entry of the given speaker (searching from the end of
the transcript), returning `none` when no such entry exists. The source's
`amendOrAppend` instead only ever looks at the last entry overall. -/
def amendLastOfSpeaker (sp : Speaker) (txt : String) :
    List TranscriptionEntry → Option (List TranscriptionEntry)
  | [] => none
  | e :: es =>
    match amendLastOfSpeaker sp txt es with
    | some es' => some (e :: es')
    | none =>
      if e.speaker = sp ∧ e.isFinal = false then
        some ({ e with text := txt } :: es)
      else
        none

/-- Modelled from the claim wording for comparison with the source: a delta is
appended to the speaker's accumulator and recorded by in-place amendment of
the speaker's last non-final entry, a new entry being created only when none
exists. -/
def specDeltaStep (sp : Speaker) (d : String) (s : SessionState) : SessionState :=
  match sp with
  | Speaker.user =>
    { s with inAcc := s.inAcc ++ d
             transcription := (amendLastOfSpeaker Speaker.user (s.inAcc ++ d) s.transcription).getD
               (s.transcription ++ [⟨Speaker.user, s.inAcc ++ d, false⟩]) }
  | Speaker.bot =>
    { s with outAcc := s.outAcc ++ d
             transcription := (amendLastOfSpeaker Speaker.bot (s.outAcc ++ d) s.transcription).getD
               (s.transcription ++ [⟨Speaker.bot, s.outAcc ++ d, false⟩]) }

/-- Fold of the claim-side delta step over a delta sequence. -/
def specProcessDeltas (s : SessionState) (ds : List (Speaker × String)) : SessionState :=
  ds.foldl (fun s d => specDeltaStep d.1 d.2 s) s

/-- Truncation toward zero of a rational, as performed by the JS
`ToIntegerOrInfinity` step of an `Int16Array` element assignment. -/
def truncTowardZero (q : ℚ) : ℤ :=
  Int.tdiv q.num (q.den : ℤ)

/-- Reduction of an integer to the signed 16-bit range by two's-complement
wrap, as performed by the JS `ToInt16` step of an `Int16Array` element
assignment. -/
def toInt16 (n : ℤ) : ℤ :=
  (n + 32768) % 65536 - 32768

/-- The per-sample conversion of `onaudioprocess`: the source assigns
`inputData[i] * 32768` into an `Int16Array` slot, so the sample is multiplied
by 32768, truncated toward zero and wrapped into the Int16 range, with no
dithering and no clipping guard. -/
def quantizeSample (x : ℚ) : ℤ :=
  toInt16 (truncTowardZero (x * 32768))

/-- The whole captured block conversion performed by `onaudioprocess`. -/
def onaudioprocessBlock (xs : List ℚ) : List ℤ :=
  xs.map quantizeSample

/-- The long-lived refs and state of the voice `Chatbot` component that
`cleanup`, `stopSession` and `handleDataSubmission` touch. Resource handles
(microphone stream, script processor, the two audio contexts, the session
promise) are modelled by presence flags. -/
structure VoiceState where
  status : ChatStatus
  error : Option String
  showFeedback : Bool
  isSubmitting : Bool
  micStream : Bool
  scriptProcessor : Bool
  inputCtx : Bool
  outputCtx : Bool
  session : Bool
  sources : List (ℚ × ℚ)
  nextStartTime : ℚ
  isSubmittingRef : Bool
  deriving DecidableEq

/-- `stopAudioPlayback` of the voice component: when the output audio context
exists, stop every tracked source, clear the set, and reset the clock. -/
def stopAudioPlayback (c : VoiceState) : VoiceState :=
  if c.outputCtx then { c with sources := [], nextStartTime := 0 } else c

/-- `cleanup` of the voice component: stop playback, release the microphone,
disconnect the script processor, close and null both audio contexts, close and
null the session, and clear the submitting ref. It never touches the status
state. -/
def cleanup (c : VoiceState) : VoiceState :=
  { stopAudioPlayback c with
      micStream := false
      scriptProcessor := false
      inputCtx := false
      outputCtx := false
      session := false
      isSubmittingRef := false }

/-- The `onclose` callback of the voice session: `() => cleanup()`. -/
def onSessionClose (c : VoiceState) : VoiceState :=
  cleanup c

/-- `stopSession` of the voice component: set status to `IDLE`, then
`cleanup`. -/
def stopSessionOp (c : VoiceState) : VoiceState :=
  cleanup { c with status := ChatStatus.IDLE }

/-- Relay response as observed by `handleDataSubmission`: the HTTP-level `ok`
flag and status of the `fetch` response, and the parsed JSON body's `ok` and
`error` fields (the body parse falls back to `{}`, i.e. both absent). -/
structure RelayResponse where
  httpOk : Bool
  httpStatus : Nat
  bodyOk : Bool
  bodyError : Option String
  deriving DecidableEq

/-- Environment of one submission attempt: the outcome of the one-shot
extraction request (error message, or success) and the outcome of the relay
POST (network failure message, or a response). -/
structure SubmitEnv where
  extraction : Except String Unit
  relay : Except String RelayResponse

/-- The error message thrown for a failed relay response:
`result.error || Webhook failed (status).` with JS falsiness on the former. -/
def webhookFailMsg (r : RelayResponse) : String :=
  match r.bodyError with
  | some e => if e = "" then "Webhook failed (" ++ toString r.httpStatus ++ ")." else e
  | none => "Webhook failed (" ++ toString r.httpStatus ++ ")."

/-- The state of `ChatbotText` touched by its `handleDataSubmission`. -/
structure TextSubmitState where
  isSubmittingRef : Bool
  isSubmitting : Bool
  error : Option String
  showFeedback : Bool
  deriving DecidableEq

/-- Request counts observed during a submission: extraction requests issued
and relay POSTs issued. -/
structure SubmitCounts where
  extractionRequests : Nat
  relayPosts : Nat
  deriving DecidableEq

/-- `handleDataSubmission` of `ChatbotText`, evaluated to its settled state:
guard on `isSubmittingRef` checked and set at entry, extraction request, relay
POST, error surfaced in `catch`, guard and flag cleared in `finally`, feedback
shown only on success. -/
def handleDataSubmissionText (env : SubmitEnv) (s : TextSubmitState) :
    TextSubmitState × SubmitCounts :=
  if s.isSubmittingRef then (s, ⟨0, 0⟩)
  else
    match env.extraction with
    | Except.error e =>
      ({ s with error := some e, isSubmitting := false, isSubmittingRef := false }, ⟨1, 0⟩)
    | Except.ok _ =>
      match env.relay with
      | Except.error e =>
        ({ s with error := some e, isSubmitting := false, isSubmittingRef := false }, ⟨1, 1⟩)
      | Except.ok r =>
        if r.httpOk = false ∨ r.bodyOk = false then
          ({ s with error := some (webhookFailMsg r),
                    isSubmitting := false, isSubmittingRef := false }, ⟨1, 1⟩)
        else
          ({ s with isSubmitting := false, isSubmittingRef := false,
                    showFeedback := true }, ⟨1, 1⟩)

/-- `handleDataSubmission` of the voice `Chatbot`, evaluated to its settled
state. Its guard is the `isSubmitting` state value; on entry it sets
`isSubmitting` and status `PROCESSING`; failures set the error message and
status `ERROR` in `catch`; the `finally` block clears `isSubmitting`, shows
feedback on success, and calls `stopSession()` (which sets status `IDLE` and
runs `cleanup`). -/
def handleDataSubmissionVoice (env : SubmitEnv) (c : VoiceState) :
    VoiceState × SubmitCounts :=
  if c.isSubmitting then (c, ⟨0, 0⟩)
  else
    let c1 := { c with isSubmitting := true, status := ChatStatus.PROCESSING }
    match env.extraction with
    | Except.error e =>
      (stopSessionOp { c1 with error := some e, status := ChatStatus.ERROR,
                               isSubmitting := false }, ⟨1, 0⟩)
    | Except.ok _ =>
      match env.relay with
      | Except.error e =>
        (stopSessionOp { c1 with error := some e, status := ChatStatus.ERROR,
                                 isSubmitting := false }, ⟨1, 1⟩)
      | Except.ok r =>
        if r.httpOk = false ∨ r.bodyOk = false then
          (stopSessionOp { c1 with error := some (webhookFailMsg r),
                                   status := ChatStatus.ERROR,
                                   isSubmitting := false }, ⟨1, 1⟩)
        else
          (stopSessionOp { c1 with isSubmitting := false, showFeedback := true }, ⟨1, 1⟩)

/-- A React `useState` boolean as seen from inside event handlers: `value` is
the snapshot a handler reads, `pending` a requested update that is applied
only at the next render (i.e. in a later task), never within the task that
requested it. -/
structure ReactBool where
  value : Bool
  pending : Option Bool
  deriving DecidableEq

/-- Apply a pending `setState` (a render boundary between tasks). -/
def rbFlush (g : ReactBool) : ReactBool :=
  match g.pending with
  | some b => ⟨b, none⟩
  | none => g

/-- Entry section of the voice `handleDataSubmission`:
`if (isSubmitting) return; setIsSubmitting(true);` — the read sees the
rendered snapshot and the write is only queued. Returns whether the call
proceeds past the guard. -/
def voiceSubmitEntry (g : ReactBool) : Bool × ReactBool :=
  if g.value then (false, g) else (true, { g with pending := some true })

/-- Entry section of the text `handleDataSubmission`:
`if (isSubmittingRef.current) return; isSubmittingRef.current = true;` — a ref
is read and written synchronously. Returns whether the call proceeds past the
guard. -/
def textSubmitEntry (g : Bool) : Bool × Bool :=
  if g then (false, g) else (true, true)

/-- Number of extraction requests performed when `submit` is invoked twice
before the first invocation settles: each invocation that passes the guard
performs exactly one extraction request; `between` is whatever happens to the
guard between the two invocations. -/
def doubleCallExtractions {G : Type} (entry : G → Bool × G) (between : G → G)
    (g0 : G) : Nat :=
  (if (entry g0).1 then 1 else 0) +
    (if (entry (between (entry g0).2)).1 then 1 else 0)

/-- Extraction requests observed when the voice `handleDataSubmission` is
invoked twice within the same task (no render boundary between the calls). -/
def voiceSameTaskExtractions : Nat :=
  doubleCallExtractions voiceSubmitEntry id ⟨false, none⟩

/-- Extraction requests observed when the voice `handleDataSubmission` is
invoked twice with a render boundary between the calls (but still before the
first settles). -/
def voiceNextTaskExtractions : Nat :=
  doubleCallExtractions voiceSubmitEntry rbFlush ⟨false, none⟩

/-- Extraction requests observed when the text `handleDataSubmission` is
invoked twice within the same task. -/
def textSameTaskExtractions : Nat :=
  doubleCallExtractions textSubmitEntry id false

/-- Chat-history role of `ChatbotText` (`ContentTurn.role`). -/
inductive Role
  | user
  | model
  deriving DecidableEq

/-- One chat-history turn of `ChatbotText` (`parts` always holds one text). -/
structure ContentTurn where
  role : Role
  text : String
  deriving DecidableEq

/-- The state of `ChatbotText` touched by `sendMessage`. -/
structure TextChatState where
  transcription : List TranscriptionEntry
  chatHistory : List ContentTurn
  inputValue : String
  isLoading : Bool
  error : Option String
  deriving DecidableEq

/-- Environment of one `sendMessage` call: the configured API key and the
outcome of the model request (an error message, or a response whose `text`
field may be absent). -/
structure ChatEnv where
  apiKey : String
  modelReply : Except String (Option String)

/-- An apostrophe, kept out of string literals. -/
def apos : String :=
  String.singleton (Char.ofNat 39)

/-- The confirmation phrase with an apostrophe from the `sendMessage` pattern
list. -/
def thatsRight : String :=
  "that" ++ apos ++ "s right"

/-- The exact-match alternatives of the confirmation pattern in
`sendMessage`. -/
def confirmPhrases : List String :=
  ["yes", "correct", thatsRight, "yep", "yeah", "sounds good"]

/-- `isConfirmationAnswer` of `sendMessage`: a case-insensitive exact match of
one of the listed phrases, or the lowercased text containing `yes` or
`correct`. -/
def isConfirmationAnswer (text : String) : Bool :=
  confirmPhrases.contains (strLower (strTrim text)) ||
    strContains (strLower text) "yes" || strContains (strLower text) "correct"

/-- The substring of the final-confirmation bot line that `sendMessage` tests
for. -/
def isThatCorrect : String :=
  "Is that correct?"

/-- The fixed closing line appended without a model request when the user
confirms. -/
def closingMessage : String :=
  "Perfect! A JHN Finance representative will review your information and get in touch with you shortly with your personalized quote. Thank you for using the JHN Finance AI Agent!"

/-- The substring whose presence in a bot entry gates the submit button. -/
def thankYouLine : String :=
  "Thank you for using the JHN Finance AI Agent!"

/-- `lastBotMessage` of `sendMessage`: text of the last bot entry, or the
empty string. -/
def lastBotMessage (l : List TranscriptionEntry) : String :=
  ((((l.filter (fun e => e.speaker = Speaker.bot)).getLast?).map
    (fun e => e.text)).getD "")

/-- The fallback bot reply used when the model response has no text. -/
def noReplyFallback : String :=
  "I apologize, I could not generate a response."

/-- The error message set when the API key is missing. -/
def missingKeyMsg : String :=
  "Connection setup is incomplete. Please ensure GEMINI_API_KEY is set."

/-- `sendMessage` of `ChatbotText`, evaluated to its settled state, paired
with the number of model requests it issues: the trimmed-empty/loading guard,
the confirmation branch that appends the user entry and the fixed closing bot
entry without any model request, and the ordinary branch that appends the user
entry and issues one model request. -/
def sendMessage (env : ChatEnv) (s : TextChatState) : TextChatState × Nat :=
  if strTrim s.inputValue = "" ∨ s.isLoading = true then (s, 0)
  else
    let text := strTrim s.inputValue
    let s1 : TextChatState := { s with inputValue := "", error := none }
    if strContains (lastBotMessage s1.transcription) isThatCorrect &&
        isConfirmationAnswer text then
      ({ s1 with
          transcription := s1.transcription ++
            [⟨Speaker.user, text, true⟩, ⟨Speaker.bot, closingMessage, true⟩]
          chatHistory := s1.chatHistory ++
            [⟨Role.user, text⟩, ⟨Role.model, closingMessage⟩] }, 0)
    else
      let s2 : TextChatState := { s1 with
        transcription := s1.transcription ++ [⟨Speaker.user, text, true⟩]
        chatHistory := s1.chatHistory ++ [⟨Role.user, text⟩]
        isLoading := true }
      if env.apiKey = "" then
        ({ s2 with error := some missingKeyMsg, isLoading := false }, 0)
      else
        match env.modelReply with
        | Except.ok reply =>
          let botText := (reply.map strTrim).getD noReplyFallback
          ({ s2 with
              transcription := s2.transcription ++ [⟨Speaker.bot, botText, true⟩]
              chatHistory := s2.chatHistory ++ [⟨Role.model, botText⟩]
              isLoading := false }, 1)
        | Except.error msg =>
          ({ s2 with error := some msg, isLoading := false }, 1)

/-- `botSaidThankYou` of both components: some bot entry contains the closing
line. -/
def botSaidThankYou (l : List TranscriptionEntry) : Bool :=
  l.any (fun e => decide (e.speaker = Speaker.bot) && strContains e.text thankYouLine)

/-- The submit-button visibility condition of `ChatbotText`. -/
def showSubmitButton (l : List TranscriptionEntry)
    (showFeedback isSubmitting : Bool) : Bool :=
  decide (2 ≤ l.length) && botSaidThankYou l && !showFeedback && !isSubmitting

/-- Concrete session-handler state used by witnesses. -/
def wSession : SessionState :=
  ⟨[⟨Speaker.bot, "hello", false⟩], "", "hello", 7, [(2, 7)], ChatStatus.SPEAKING⟩

/-- Concrete voice-component state (with status `ERROR`) used by witnesses. -/
def wVoiceErr : VoiceState :=
  ⟨ChatStatus.ERROR, some "boom", false, false, true, true, true, true, true, [(0, 1)], 3, true⟩

/-- Concrete voice-component state used by the C6 witness. -/
def wVoiceIdle : VoiceState :=
  ⟨ChatStatus.LISTENING, none, false, false, true, true, true, true, true, [], 0, false⟩

/-- The relay response of the C6 scenario: `{ok: false, status: 502}`. -/
def wRelay502 : RelayResponse :=
  ⟨false, 502, false, none⟩

/-- Concrete submission environment in which the relay reports failure. -/
def wEnvFail : SubmitEnv :=
  ⟨Except.ok (), Except.ok wRelay502⟩

/-- Concrete submission environment in which everything succeeds. -/
def wEnvOk : SubmitEnv :=
  ⟨Except.ok (), Except.ok ⟨true, 200, true, none⟩⟩

/-- Concrete text-chat state at the final confirmation, used by the C9
witness. -/
def wConfirmState : TextChatState :=
  ⟨[⟨Speaker.bot, "Okay, just to confirm. Is that correct?", true⟩],
   [⟨Role.model, "Okay, just to confirm. Is that correct?"⟩],
   "yes", false, none⟩

/-- Concrete chat environment used by witnesses. -/
def wChatEnv : ChatEnv :=
  ⟨"key", Except.ok none⟩

end JHN

namespace JHN

/-- A message that carries only an audio payload reduces `onmessage` to
`handleAudio`. -/
theorem onmessage_audioMsg (now dur : ℚ) (s : SessionState) :
    onmessage now (audioMsg dur) s = handleAudio now dur s := rfl

/-- A message that carries only the interruption flag reduces `onmessage` to
`handleInterrupted`. -/
theorem onmessage_interruptMsg (now : ℚ) (s : SessionState) :
    onmessage now interruptMsg s = handleInterrupted s := rfl

/-- A message that carries only the turn-complete flag reduces `onmessage` to
`handleTurnComplete`. -/
theorem onmessage_turnMsg (now : ℚ) (s : SessionState) :
    onmessage now turnMsg s = handleTurnComplete s := rfl

/-- A message that carries only a transcription delta reduces `onmessage` to
`handleDelta`. -/
theorem onmessage_deltaMsg (now : ℚ) (sp : Speaker) (t : String) (s : SessionState) :
    onmessage now (deltaMsg sp t) s = handleDelta sp t s := by
  cases sp <;> rfl

/-- Every interval scheduled from clock value `st` starts no earlier than `st`
and is well-formed, provided the durations are nonnegative. -/
theorem scheduleFrags_lb (frags : List (ℚ × ℚ)) :
    ∀ st : ℚ, (∀ p ∈ frags, 0 ≤ p.2) →
      ∀ iv ∈ scheduleFrags st frags, st ≤ iv.1 ∧ iv.1 ≤ iv.2 := by
  induction frags with
  | nil => intro st _ iv hiv; simp [scheduleFrags] at hiv
  | cons p rest ih =>
    obtain ⟨now, dur⟩ := p
    intro st h iv hiv
    have h0 : (0:ℚ) ≤ dur := h (now, dur) (by simp)
    simp only [scheduleFrags, List.mem_cons] at hiv
    rcases hiv with rfl | hiv
    · exact ⟨le_max_right _ _, by simp; linarith⟩
    · have hrest := ih (max now st + dur) (fun q hq => h q (by simp [hq])) iv hiv
      have hst : st ≤ max now st + dur := by
        have := le_max_right now st
        linarith
      exact ⟨le_trans hst hrest.1, hrest.2⟩

/-- The scheduled intervals are pairwise ordered: every earlier interval ends
no later than every later one starts. -/
theorem scheduleFrags_pairwise (frags : List (ℚ × ℚ)) :
    ∀ st : ℚ, (∀ p ∈ frags, 0 ≤ p.2) →
      List.Pairwise (fun a b : ℚ × ℚ => a.2 ≤ b.1) (scheduleFrags st frags) := by
  induction frags with
  | nil => intro st _; simp [scheduleFrags]
  | cons p rest ih =>
    obtain ⟨now, dur⟩ := p
    intro st h
    simp only [scheduleFrags]
    refine List.Pairwise.cons ?_ (ih (max now st + dur) (fun q hq => h q (by simp [hq])))
    intro iv hiv
    exact (scheduleFrags_lb rest (max now st + dur)
      (fun q hq => h q (by simp [hq])) iv hiv).1

/-- Each fragment maps to an interval that starts no earlier than its
processing-time clock reading and lasts exactly its duration. -/
theorem scheduleFrags_rel (frags : List (ℚ × ℚ)) :
    ∀ st : ℚ, List.Forall₂ (fun f iv : ℚ × ℚ => f.1 ≤ iv.1 ∧ iv.2 = iv.1 + f.2)
      frags (scheduleFrags st frags) := by
  induction frags with
  | nil => intro st; simp [scheduleFrags]
  | cons p rest ih =>
    obtain ⟨now, dur⟩ := p
    intro st
    simp only [scheduleFrags]
    exact List.Forall₂.cons ⟨le_max_left _ _, rfl⟩ (ih _)

/-- Folding `onmessage` over audio-only messages appends exactly the intervals
computed by `scheduleFrags` from the current clock value. -/
theorem processAudioMsgs_sources (frags : List (ℚ × ℚ)) :
    ∀ s : SessionState,
      (processAudioMsgs s frags).sources
        = s.sources ++ scheduleFrags s.nextStartTime frags := by
  induction frags with
  | nil => intro s; simp [processAudioMsgs, scheduleFrags]
  | cons p rest ih =>
    obtain ⟨now, dur⟩ := p
    intro s
    have hstep : processAudioMsgs s ((now, dur) :: rest)
        = processAudioMsgs (handleAudio now dur s) rest := by
      simp [processAudioMsgs, onmessage_audioMsg]
    rw [hstep, ih]
    simp [handleAudio, scheduleFrags]

/-- C1: handling a sequence of inbound synthesized-audio messages in delivery
order schedules each fragment at the later of the current playback time and
the end of the previously scheduled fragment, yielding one playback interval
per fragment, each interval well-formed, starting no earlier than its
fragment's arrival clock reading, and with every interval ending no later than
the next begins (non-overlapping, sequential playback). -/
theorem audio_scheduling_nonoverlap (t0 : ℚ) (frags : List (ℚ × ℚ))
    (hdur : ∀ p ∈ frags, 0 ≤ p.2) :
    (processAudioMsgs (initSession t0) frags).sources = scheduleFrags t0 frags ∧
    List.Forall₂ (fun f iv : ℚ × ℚ => f.1 ≤ iv.1 ∧ iv.2 = iv.1 + f.2)
      frags (processAudioMsgs (initSession t0) frags).sources ∧
    (processAudioMsgs (initSession t0) frags).sources.length = frags.length ∧
    (∀ iv ∈ (processAudioMsgs (initSession t0) frags).sources, iv.1 ≤ iv.2) ∧
    List.Pairwise (fun a b : ℚ × ℚ => a.2 ≤ b.1)
      (processAudioMsgs (initSession t0) frags).sources := by
  have hs : (processAudioMsgs (initSession t0) frags).sources = scheduleFrags t0 frags := by
    simpa [initSession] using processAudioMsgs_sources frags (initSession t0)
  refine ⟨hs, ?_, ?_, ?_, ?_⟩ <;> rw [hs]
  · exact scheduleFrags_rel frags t0
  · exact (scheduleFrags_rel frags t0).length_eq.symm
  · intro iv hiv
    exact (scheduleFrags_lb frags t0 hdur iv hiv).2
  · exact scheduleFrags_pairwise frags t0 hdur

/-- Witness for C1 at a concrete fragment sequence. -/
theorem audio_scheduling_nonoverlap_witness :
    (∀ p ∈ ([(0, 1), (1/2, 1), (5, 2)] : List (ℚ × ℚ)), 0 ≤ p.2) ∧
    List.Pairwise (fun a b : ℚ × ℚ => a.2 ≤ b.1)
      (processAudioMsgs (initSession 0) [(0, 1), (1/2, 1), (5, 2)]).sources :=
  ⟨by norm_num,
   (audio_scheduling_nonoverlap 0 [(0, 1), (1/2, 1), (5, 2)] (by norm_num)).2.2.2.2⟩

/-- C2: an interruption message stops and removes every active audio source
(the active set becomes empty) and resets the playback clock to zero; a
fragment handled afterwards at clock reading `now2 ≥ 0` is scheduled to start
at `now2`, not at the pre-interruption clock value. -/
theorem interruption_resets_playback (s : SessionState) (now now2 dur : ℚ)
    (h : 0 ≤ now2) :
    (onmessage now interruptMsg s).sources = [] ∧
    (onmessage now interruptMsg s).nextStartTime = 0 ∧
    (onmessage now2 (audioMsg dur) (onmessage now interruptMsg s)).sources
      = [(now2, now2 + dur)] ∧
    (onmessage now2 (audioMsg dur) (onmessage now interruptMsg s)).nextStartTime
      = now2 + dur := by
  rw [onmessage_interruptMsg, onmessage_audioMsg]
  have h2 : max now2 (0:ℚ) = now2 := max_eq_left h
  refine ⟨rfl, rfl, ?_, ?_⟩ <;>
    simp [handleAudio, handleInterrupted, h2]

/-- Witness for C2 at a concrete state and clock readings. -/
theorem interruption_resets_playback_witness :
    (0:ℚ) ≤ 5 ∧
    (onmessage 9 interruptMsg wSession).sources = [] ∧
    (onmessage 5 (audioMsg 2) (onmessage 9 interruptMsg wSession)).sources
      = [(5, 5 + 2)] :=
  ⟨by norm_num,
   (interruption_resets_playback wSession 9 5 2 (by norm_num)).1,
   (interruption_resets_playback wSession 9 5 2 (by norm_num)).2.2.1⟩

/-- C7: each captured sample is converted by multiplying by 32768, truncating
toward zero, and wrapping two's-complement into the Int16 range: the result
always lies in `[-32768, 32767]` and is congruent mod 65536 to the truncated
product; there is no clipping guard, so the out-of-range samples 1.0 and 1.5
wrap to -32768 and -16384 instead of saturating at 32767. -/
theorem outbound_quantization :
    (∀ x : ℚ, -32768 ≤ quantizeSample x ∧ quantizeSample x ≤ 32767 ∧
        (quantizeSample x - truncTowardZero (x * 32768)) % 65536 = 0) ∧
    quantizeSample 1 = -32768 ∧
    quantizeSample (3/2) = -16384 ∧
    quantizeSample (1/2) = 16384 ∧
    onaudioprocessBlock [1/2, 1, 3/2] = [16384, -32768, -16384] := by
  refine ⟨?_, ?_, ?_, ?_, ?_⟩
  · intro x
    unfold quantizeSample toInt16
    refine ⟨?_, ?_, ?_⟩ <;> omega
  · norm_num [quantizeSample, truncTowardZero, toInt16]
  · norm_num [quantizeSample, truncTowardZero, toInt16]
  · norm_num [quantizeSample, truncTowardZero, toInt16]
  · norm_num [onaudioprocessBlock, quantizeSample, truncTowardZero, toInt16]

/-- C8: when the remote session closes without an explicit stop, the `onclose`
callback runs `cleanup`, which releases every resource (playback sources and
clock, microphone, script processor, both audio contexts, session handle)
while leaving the status field and error message unchanged — in particular an
existing `ERROR` status is not overwritten with `IDLE`. -/
theorem close_preserves_status (c : VoiceState) (h : c.outputCtx = true) :
    (onSessionClose c).status = c.status ∧
    (onSessionClose c).error = c.error ∧
    (onSessionClose c).micStream = false ∧
    (onSessionClose c).scriptProcessor = false ∧
    (onSessionClose c).inputCtx = false ∧
    (onSessionClose c).outputCtx = false ∧
    (onSessionClose c).session = false ∧
    (onSessionClose c).sources = [] ∧
    (onSessionClose c).nextStartTime = 0 := by
  simp [onSessionClose, cleanup, stopAudioPlayback, h]

/-- Witness for C8: a session in the `ERROR` state keeps that state (it is not
overwritten with `IDLE`) while all resources are released. -/
theorem close_preserves_status_witness :
    wVoiceErr.outputCtx = true ∧
    (onSessionClose wVoiceErr).status = ChatStatus.ERROR ∧
    (onSessionClose wVoiceErr).session = false :=
  ⟨rfl, (close_preserves_status wVoiceErr rfl).1,
   (close_preserves_status wVoiceErr rfl).2.2.2.2.2.2.1⟩

/-- C10: `sendMessage` is a no-op — no transcript entry appended, chat history
untouched, no model request — whenever the trimmed input is empty or a model
request is already in flight. -/
theorem send_message_noop (env : ChatEnv) (s : TextChatState)
    (h : strTrim s.inputValue = "" ∨ s.isLoading = true) :
    sendMessage env s = (s, 0) := by
  unfold sendMessage
  rw [if_pos h]

/-- Witness for C10 at a whitespace-only input and at an in-flight state. -/
theorem send_message_noop_witness :
    (strTrim "   " = "" ∨ false = true) ∧
    sendMessage wChatEnv ⟨[], [], "   ", false, none⟩ = (⟨[], [], "   ", false, none⟩, 0) :=
  ⟨Or.inl (by decide), send_message_noop wChatEnv ⟨[], [], "   ", false, none⟩ (Or.inl (by decide))⟩

/-- A text-chat submission that passes the ref guard performs exactly one
extraction request, and exactly one relay POST when the extraction
succeeds. -/
theorem submissionText_counts (env : SubmitEnv) (s : TextSubmitState)
    (h : s.isSubmittingRef = false) :
    ((handleDataSubmissionText env s).2).extractionRequests = 1 ∧
    (∀ u, env.extraction = Except.ok u →
      ((handleDataSubmissionText env s).2).relayPosts = 1) := by
  constructor
  · rcases hex : env.extraction with e | u
    · simp [handleDataSubmissionText, h, hex]
    · rcases hrel : env.relay with e2 | r
      · simp [handleDataSubmissionText, h, hex, hrel]
      · by_cases hr : r.httpOk = false ∨ r.bodyOk = false <;>
          simp [handleDataSubmissionText, h, hex, hrel, hr]
  · intro u hex
    rcases hrel : env.relay with e2 | r
    · simp [handleDataSubmissionText, h, hex, hrel]
    · by_cases hr : r.httpOk = false ∨ r.bodyOk = false <;>
        simp [handleDataSubmissionText, h, hex, hrel, hr]

/-- A text-chat submission invoked while another is in flight (the ref guard
is set) is a no-op: no state change, no extraction request, no relay POST. -/
theorem submissionText_guarded (env : SubmitEnv) (s : TextSubmitState)
    (h : s.isSubmittingRef = true) :
    handleDataSubmissionText env s = (s, ⟨0, 0⟩) := by
  simp [handleDataSubmissionText, h]

/-- C5 counterexample: in the voice component the in-flight guard is a React
`useState` value whose set is only queued at call entry, so when
`handleDataSubmission` is invoked twice within the same task — before the
first invocation settles and before any render applies the pending
`setIsSubmitting(true)` — both invocations read the guard as false and both
proceed: two extraction requests are performed, not one. -/
theorem double_submit_counterexample :
    voiceSameTaskExtractions = 2 := by decide

/-- C5 as amended: in the text chat the guard is a ref checked and set
synchronously at call entry, so a second invocation made before the first
settles is always a no-op and exactly one extraction request (and one relay
POST, when extraction succeeds) is performed; in the voice component the
guard is React state, so a second invocation is a no-op only when a render
boundary separates the two calls. -/
theorem double_submit_amended (env : SubmitEnv) (s1 s2 : TextSubmitState)
    (h1 : s1.isSubmittingRef = false) (h2 : s2.isSubmittingRef = true) :
    ((handleDataSubmissionText env s1).2).extractionRequests = 1 ∧
    (∀ u, env.extraction = Except.ok u →
      ((handleDataSubmissionText env s1).2).relayPosts = 1) ∧
    handleDataSubmissionText env s2 = (s2, ⟨0, 0⟩) ∧
    textSameTaskExtractions = 1 ∧
    voiceNextTaskExtractions = 1 := by
  refine ⟨(submissionText_counts env s1 h1).1, (submissionText_counts env s1 h1).2,
    submissionText_guarded env s2 h2, by decide, by decide⟩

/-- Witness for the amended C5 at a concrete environment: the first call
performs one extraction request, a second call at the in-flight state is a
no-op. -/
theorem double_submit_amended_witness :
    (⟨false, false, none, false⟩ : TextSubmitState).isSubmittingRef = false ∧
    (⟨true, true, none, false⟩ : TextSubmitState).isSubmittingRef = true ∧
    ((handleDataSubmissionText wEnvOk ⟨false, false, none, false⟩).2).extractionRequests = 1 ∧
    handleDataSubmissionText wEnvOk ⟨true, true, none, false⟩
      = (⟨true, true, none, false⟩, ⟨0, 0⟩) :=
  ⟨rfl, rfl,
   (double_submit_amended wEnvOk ⟨false, false, none, false⟩ ⟨true, true, none, false⟩ rfl rfl).1,
   (double_submit_amended wEnvOk ⟨false, false, none, false⟩ ⟨true, true, none, false⟩ rfl rfl).2.2.1⟩

/-- C6: when the relay reports failure (`result.ok = false`), both components'
`handleDataSubmission` record the thrown error message, do not show the
feedback prompt, and clear the in-flight guard; in the text chat a retry
invocation on the settled state passes the guard and performs an extraction
request again. -/
theorem relay_failure_recoverable (env : SubmitEnv) (s : TextSubmitState)
    (c : VoiceState) (r : RelayResponse)
    (h1 : s.isSubmittingRef = false) (h2 : s.showFeedback = false)
    (h3 : env.extraction = Except.ok ()) (h4 : env.relay = Except.ok r)
    (h5 : r.bodyOk = false)
    (h6 : c.isSubmitting = false) (h7 : c.showFeedback = false) :
    (handleDataSubmissionText env s).1.error = some (webhookFailMsg r) ∧
    (handleDataSubmissionText env s).1.showFeedback = false ∧
    (handleDataSubmissionText env s).1.isSubmittingRef = false ∧
    (handleDataSubmissionText env s).1.isSubmitting = false ∧
    ((handleDataSubmissionText env (handleDataSubmissionText env s).1).2).extractionRequests = 1 ∧
    (handleDataSubmissionVoice env c).1.error = some (webhookFailMsg r) ∧
    (handleDataSubmissionVoice env c).1.showFeedback = false ∧
    (handleDataSubmissionVoice env c).1.isSubmitting = false ∧
    (handleDataSubmissionVoice env c).1.isSubmittingRef = false := by
  have hcond : r.httpOk = false ∨ r.bodyOk = false := Or.inr h5
  have htext : handleDataSubmissionText env s =
      ({ s with error := some (webhookFailMsg r),
                isSubmitting := false, isSubmittingRef := false }, ⟨1, 1⟩) := by
    simp [handleDataSubmissionText, h1, h3, h4, hcond]
  have hvoice : (handleDataSubmissionVoice env c).1 =
      stopSessionOp { c with error := some (webhookFailMsg r),
                             status := ChatStatus.ERROR, isSubmitting := false } := by
    simp [handleDataSubmissionVoice, h6, h3, h4, hcond]
  refine ⟨?_, ?_, ?_, ?_, ?_, ?_, ?_, ?_, ?_⟩
  · rw [htext]
  · rw [htext]; exact h2
  · rw [htext]
  · rw [htext]
  · refine (submissionText_counts env _ ?_).1
    rw [htext]
  · rw [hvoice]; unfold stopSessionOp cleanup stopAudioPlayback; split <;> rfl
  · rw [hvoice]; unfold stopSessionOp cleanup stopAudioPlayback; split <;> exact h7
  · rw [hvoice]; unfold stopSessionOp cleanup stopAudioPlayback; split <;> rfl
  · rw [hvoice]; unfold stopSessionOp cleanup stopAudioPlayback; split <;> rfl

/-- Amending-or-appending for a speaker always leaves, as the last entry of
that speaker, an entry carrying exactly the supplied text. -/
theorem lastTextOf_amendOrAppend_same (sp : Speaker) (txt : String)
    (l : List TranscriptionEntry) :
    lastTextOf sp (amendOrAppend sp txt l) = some txt := by
  unfold amendOrAppend
  rcases hlast : l.getLast? with _ | last
  · have hl : l = [] := List.getLast?_eq_none_iff.mp hlast
    subst hl
    simp [lastTextOf]
  · dsimp only
    by_cases hc : last.speaker = sp ∧ last.isFinal = false
    · rw [if_pos hc]
      unfold lastTextOf
      rw [List.filter_append]
      have hone : List.filter (fun e => decide (e.speaker = sp)) [{ last with text := txt }]
          = [{ last with text := txt }] := by
        simp [hc.1]
      rw [hone, List.getLast?_concat]
      rfl
    · rw [if_neg hc]
      unfold lastTextOf
      rw [List.filter_append]
      have hone : List.filter (fun e => decide (e.speaker = sp))
          [(⟨sp, txt, false⟩ : TranscriptionEntry)] = [⟨sp, txt, false⟩] := by
        simp
      rw [hone, List.getLast?_concat]
      rfl

/-- Amending-or-appending for one speaker leaves the other speaker's last
entry untouched. -/
theorem lastTextOf_amendOrAppend_other (sp sp' : Speaker) (txt : String)
    (l : List TranscriptionEntry) (h : sp' ≠ sp) :
    lastTextOf sp' (amendOrAppend sp txt l) = lastTextOf sp' l := by
  unfold amendOrAppend
  rcases hlast : l.getLast? with _ | last
  · have hl : l = [] := List.getLast?_eq_none_iff.mp hlast
    subst hl
    simp [lastTextOf, Ne.symm h]
  · dsimp only
    by_cases hc : last.speaker = sp ∧ last.isFinal = false
    · rw [if_pos hc]
      have hne : l ≠ [] := by
        intro hh
        rw [hh] at hlast
        simp at hlast
      have hlg : l.getLast hne = last := by
        rw [List.getLast?_eq_getLast l hne] at hlast
        exact Option.some.inj hlast
      unfold lastTextOf
      conv_rhs => rw [← List.dropLast_append_getLast hne]
      rw [List.filter_append, List.filter_append]
      have h1 : List.filter (fun e => decide (e.speaker = sp')) [{ last with text := txt }]
          = [] := by
        simp [hc.1, Ne.symm h]
      have h2 : List.filter (fun e => decide (e.speaker = sp')) [l.getLast hne] = [] := by
        simp [hlg, hc.1, Ne.symm h]
      rw [h1, h2]
    · rw [if_neg hc]
      unfold lastTextOf
      rw [List.filter_append]
      have h1 : List.filter (fun e => decide (e.speaker = sp'))
          [(⟨sp, txt, false⟩ : TranscriptionEntry)] = [] := by
        simp [Ne.symm h]
      rw [h1, List.append_nil]

/-- Effect of a delta step on the two accumulator refs. -/
theorem accOf_handleDelta (sp sp' : Speaker) (t : String) (s : SessionState) :
    accOf sp' (handleDelta sp t s)
      = if sp' = sp then accOf sp' s ++ t else accOf sp' s := by
  cases sp <;> cases sp' <;>
    simp [handleDelta, handleInput, handleOutput, accOf]

/-- Effect of a delta step on the transcript, seen through `lastTextOf`. -/
theorem lastTextOf_handleDelta (sp sp' : Speaker) (t : String) (s : SessionState) :
    lastTextOf sp' (handleDelta sp t s).transcription
      = if sp' = sp then some (accOf sp s ++ t)
        else lastTextOf sp' s.transcription := by
  by_cases hsp : sp' = sp
  · subst hsp
    rw [if_pos rfl]
    cases sp' <;>
      simp [handleDelta, handleInput, handleOutput, accOf, lastTextOf_amendOrAppend_same]
  · rw [if_neg hsp]
    cases sp <;>
      simpa [handleDelta, handleInput, handleOutput]
        using lastTextOf_amendOrAppend_other _ sp' _ s.transcription hsp

/-- A speaker with no deltas in a batch contributes the empty
concatenation. -/
theorem concatFor_of_not_mem (sp : Speaker) :
    ∀ ds : List (Speaker × String), sp ∉ ds.map Prod.fst → concatFor sp ds = "" := by
  intro ds
  induction ds with
  | nil => intro _; rfl
  | cons d rest ih =>
    obtain ⟨sp1, t⟩ := d
    intro h
    simp only [List.map_cons, List.mem_cons, not_or] at h
    simp only [concatFor]
    rw [if_neg (fun hh => h.1 hh.symm), ih h.2]

/-- Invariant of the delta fold: each accumulator holds the concatenation of
its speaker's deltas so far, and once a speaker has received a delta the last
transcript entry of that speaker carries exactly the accumulator text. -/
theorem processDeltas_acc_lastText (ds : List (Speaker × String)) :
    ∀ (s : SessionState) (sp : Speaker),
      accOf sp (processDeltas s ds) = accOf sp s ++ concatFor sp ds ∧
      lastTextOf sp (processDeltas s ds).transcription =
        (if sp ∈ ds.map Prod.fst then some (accOf sp s ++ concatFor sp ds)
         else lastTextOf sp s.transcription) := by
  induction ds with
  | nil =>
    intro s sp
    simp [processDeltas, concatFor, String.append_empty]
  | cons d rest ih =>
    obtain ⟨sp1, t⟩ := d
    intro s sp
    have hstep : processDeltas s ((sp1, t) :: rest)
        = processDeltas (handleDelta sp1 t s) rest := rfl
    rw [hstep]
    obtain ⟨iha, ihl⟩ := ih (handleDelta sp1 t s) sp
    by_cases hsp : sp = sp1
    · subst hsp
      have ha : accOf sp (handleDelta sp t s) = accOf sp s ++ t := by
        simpa using accOf_handleDelta sp sp t s
      have hcat : concatFor sp ((sp, t) :: rest) = t ++ concatFor sp rest := by
        simp [concatFor]
      have hmcons : sp ∈ ((sp, t) :: rest).map Prod.fst := by simp
      refine ⟨?_, ?_⟩
      · rw [iha, ha, hcat, String.append_assoc]
      · rw [ihl, if_pos hmcons]
        by_cases hmem : sp ∈ rest.map Prod.fst
        · rw [if_pos hmem, ha, hcat, String.append_assoc]
        · rw [if_neg hmem]
          have hl : lastTextOf sp (handleDelta sp t s).transcription
              = some (accOf sp s ++ t) := by
            simpa using lastTextOf_handleDelta sp sp t s
          rw [hl, hcat, concatFor_of_not_mem sp rest hmem, String.append_empty]
    · have ha : accOf sp (handleDelta sp1 t s) = accOf sp s := by
        simpa [hsp] using accOf_handleDelta sp1 sp t s
      have hl : lastTextOf sp (handleDelta sp1 t s).transcription
          = lastTextOf sp s.transcription := by
        simpa [hsp] using lastTextOf_handleDelta sp1 sp t s
      have hcat : concatFor sp ((sp1, t) :: rest) = concatFor sp rest := by
        simp only [concatFor]
        rw [if_neg (fun hh => hsp hh.symm)]
      have hmiff : (sp ∈ ((sp1, t) :: rest).map Prod.fst) ↔ sp ∈ rest.map Prod.fst := by
        simp [hsp]
      refine ⟨?_, ?_⟩
      · rw [iha, ha, hcat]
      · rw [ihl, ha, hl, hcat]
        by_cases hmem : sp ∈ rest.map Prod.fst
        · rw [if_pos hmem, if_pos (hmiff.mpr hmem)]
        · rw [if_neg hmem, if_neg (fun hh => hmem (hmiff.mp hh))]

/-- Marking every entry final preserves each speaker's last entry text. -/
theorem lastTextOf_map_final (sp : Speaker) (l : List TranscriptionEntry) :
    lastTextOf sp (l.map (fun e => { e with isFinal := true })) = lastTextOf sp l := by
  unfold lastTextOf
  rw [List.filter_map, List.getLast?_map, Option.map_map]
  rfl

/-- C3 counterexample: on the interleaved delta sequence
user "a", bot "b", user "c" the code creates a third entry carrying the full
accumulator "ac" and leaves the earlier non-final user entry "a" in place,
whereas the claimed in-place amendment of the last non-final entry of the
speaker would amend that earlier entry, producing a two-entry transcript. -/
theorem transcript_amend_counterexample :
    (processDeltaMsgs (initSession 0)
        [(Speaker.user, "a"), (Speaker.bot, "b"), (Speaker.user, "c")]).transcription =
      [⟨Speaker.user, "a", false⟩, ⟨Speaker.bot, "b", false⟩, ⟨Speaker.user, "ac", false⟩] ∧
    (specProcessDeltas (initSession 0)
        [(Speaker.user, "a"), (Speaker.bot, "b"), (Speaker.user, "c")]).transcription =
      [⟨Speaker.user, "ac", false⟩, ⟨Speaker.bot, "b", false⟩] ∧
    (processDeltaMsgs (initSession 0)
        [(Speaker.user, "a"), (Speaker.bot, "b"), (Speaker.user, "c")]).transcription ≠
      (specProcessDeltas (initSession 0)
        [(Speaker.user, "a"), (Speaker.bot, "b"), (Speaker.user, "c")]).transcription :=
  ⟨by decide, by decide, by decide⟩

/-- C3 as amended: a delta is appended to its speaker's accumulator; the
transcript is amended in place only when the last entry overall belongs to the
same speaker and is non-final, and otherwise a new entry carrying the full
accumulator is appended (possibly leaving an earlier non-final entry of that
speaker as a stale duplicate); consequently, after the turn-complete commit,
the last transcript entry of each speaker that received at least one delta
has text equal to the concatenation of all of that speaker's deltas in
arrival order — including when updates for the two speakers interleave. -/
theorem transcript_concat_amended (ds : List (Speaker × String)) (sp : Speaker)
    (h : sp ∈ ds.map Prod.fst) :
    lastTextOf sp (onmessage 0 turnMsg (processDeltaMsgs (initSession 0) ds)).transcription
      = some (concatFor sp ds) := by
  rw [onmessage_turnMsg]
  have hfold : processDeltaMsgs (initSession 0) ds = processDeltas (initSession 0) ds := by
    unfold processDeltaMsgs processDeltas
    simp only [onmessage_deltaMsg]
  have hmap : (handleTurnComplete (processDeltas (initSession 0) ds)).transcription
      = (processDeltas (initSession 0) ds).transcription.map
          (fun e => { e with isFinal := true }) := rfl
  rw [hfold, hmap, lastTextOf_map_final]
  have hmain := (processDeltas_acc_lastText ds (initSession 0) sp).2
  rw [if_pos h] at hmain
  have hacc : accOf sp (initSession 0) = "" := by cases sp <;> rfl
  rw [hmain, hacc, String.empty_append]

/-- Witness for the amended C3 on an interleaved delta sequence. -/
theorem transcript_concat_amended_witness :
    Speaker.user ∈ ([(Speaker.user, "a"), (Speaker.bot, "x"),
        (Speaker.user, "b")].map Prod.fst) ∧
    lastTextOf Speaker.user (onmessage 0 turnMsg (processDeltaMsgs (initSession 0)
        [(Speaker.user, "a"), (Speaker.bot, "x"), (Speaker.user, "b")])).transcription
      = some (concatFor Speaker.user
          [(Speaker.user, "a"), (Speaker.bot, "x"), (Speaker.user, "b")]) ∧
    concatFor Speaker.user [(Speaker.user, "a"), (Speaker.bot, "x"), (Speaker.user, "b")]
      = "ab" :=
  ⟨by decide,
   transcript_concat_amended [(Speaker.user, "a"), (Speaker.bot, "x"), (Speaker.user, "b")]
     Speaker.user (by decide),
   by decide⟩

/-- Entries already committed as final can never be touched by a later
amend-or-append: they stay a prefix of the transcript. -/
theorem prefix_amendOrAppend (sp : Speaker) (txt : String)
    (l₀ l : List TranscriptionEntry)
    (hpre : l₀ <+: l) (hfin : ∀ e ∈ l₀, e.isFinal = true) :
    l₀ <+: amendOrAppend sp txt l := by
  unfold amendOrAppend
  rcases hlast : l.getLast? with _ | last
  · exact hpre.trans (List.prefix_append l _)
  · dsimp only
    by_cases hc : last.speaker = sp ∧ last.isFinal = false
    · rw [if_pos hc]
      obtain ⟨t, rfl⟩ := hpre
      rcases ht : t with _ | ⟨c, t'⟩
      · subst ht
        have hmem : last ∈ l₀ ++ [] := List.mem_of_mem_getLast? hlast
        rw [List.append_nil] at hmem
        rw [hfin last hmem] at hc
        exact absurd hc.2 (by simp)
      · subst ht
        rw [List.dropLast_append_of_ne_nil l₀ (by simp)]
        rw [List.append_assoc]
        exact List.prefix_append l₀ _
    · rw [if_neg hc]
      exact hpre.trans (List.prefix_append l _)

/-- A committed-final prefix survives one whole inbound message. -/
theorem prefix_onmessage (now : ℚ) (m : LiveMsg) (s : SessionState)
    (l₀ : List TranscriptionEntry)
    (hpre : l₀ <+: s.transcription) (hfin : ∀ e ∈ l₀, e.isFinal = true) :
    l₀ <+: (onmessage now m s).transcription := by
  have h1 : l₀ <+: (applyInput m s).transcription := by
    unfold applyInput
    rcases m.inputTranscription with _ | t
    · exact hpre
    · exact prefix_amendOrAppend _ _ l₀ _ hpre hfin
  have h2 : l₀ <+: (applyOutput m (applyInput m s)).transcription := by
    unfold applyOutput
    rcases m.outputTranscription with _ | t
    · exact h1
    · exact prefix_amendOrAppend _ _ l₀ _ h1 hfin
  have h3 : l₀ <+: (applyTurn m (applyOutput m (applyInput m s))).transcription := by
    unfold applyTurn
    by_cases ht : m.turnComplete = true
    · rw [if_pos ht]
      obtain ⟨t, heq⟩ := h2
      show l₀ <+: List.map _ _
      rw [← heq, List.map_append]
      have hid : List.map (fun e => { e with isFinal := true }) l₀ = l₀ := by
        rw [List.map_congr_left (fun e he => ?_), List.map_id]
        have hf := hfin e he
        cases e
        simp_all
      rw [hid]
      exact List.prefix_append l₀ _
    · rw [if_neg ht]
      exact h2
  have h4 : l₀ <+: (applyAudio now m (applyTurn m (applyOutput m (applyInput m s)))).transcription := by
    unfold applyAudio
    rcases m.audioDuration with _ | dur
    · exact h3
    · exact h3
  show l₀ <+: (applyInterrupted m _).transcription
  unfold applyInterrupted
  by_cases hi : m.interrupted = true
  · rw [if_pos hi]
    exact h4
  · rw [if_neg hi]
    exact h4

/-- A committed-final prefix survives any sequence of later inbound
messages. -/
theorem prefix_processMsgs (ms : List (ℚ × LiveMsg)) :
    ∀ (s : SessionState) (l₀ : List TranscriptionEntry),
      l₀ <+: s.transcription → (∀ e ∈ l₀, e.isFinal = true) →
      l₀ <+: (processMsgs s ms).transcription := by
  induction ms with
  | nil => intro s l₀ hpre _; exact hpre
  | cons m rest ih =>
    intro s l₀ hpre hfin
    exact ih (onmessage m.1 m.2 s) l₀ (prefix_onmessage m.1 m.2 s l₀ hpre hfin) hfin

/-- C4: handling a turn-complete message marks every transcript entry final
(leaving zero non-final entries) and resets both accumulators to the empty
string, and the entries committed at that point are never amended afterwards:
they remain, unchanged, a prefix of the transcript produced by any sequence of
subsequent messages. -/
theorem turn_complete_commits (s : SessionState) (ms : List (ℚ × LiveMsg)) :
    (∀ e ∈ (onmessage 0 turnMsg s).transcription, e.isFinal = true) ∧
    (onmessage 0 turnMsg s).inAcc = "" ∧
    (onmessage 0 turnMsg s).outAcc = "" ∧
    (onmessage 0 turnMsg s).transcription <+:
      (processMsgs (onmessage 0 turnMsg s) ms).transcription := by
  have hall : ∀ e ∈ (onmessage 0 turnMsg s).transcription, e.isFinal = true := by
    rw [onmessage_turnMsg]
    intro e he
    simp only [handleTurnComplete, List.mem_map] at he
    obtain ⟨a, _, rfl⟩ := he
    rfl
  exact ⟨hall, rfl, rfl,
    prefix_processMsgs ms _ _ (List.prefix_refl _) hall⟩

/-- C9: when the last bot message contains the confirmation question and the
user sends a confirming reply, `sendMessage` appends the user entry and the
fixed closing bot line without issuing any model request, and the submit
action becomes available: the transcript has at least two entries and a bot
entry containing the thank-you closing text (with no feedback shown and no
submission in flight). -/
theorem confirm_appends_closing (env : ChatEnv) (s : TextChatState)
    (h1 : strContains (lastBotMessage s.transcription) isThatCorrect = true)
    (h2 : isConfirmationAnswer (strTrim s.inputValue) = true)
    (h3 : ¬ strTrim s.inputValue = "")
    (h4 : s.isLoading = false) :
    sendMessage env s =
      ({ s with
          inputValue := ""
          error := none
          transcription := s.transcription ++
            [⟨Speaker.user, strTrim s.inputValue, true⟩,
             ⟨Speaker.bot, closingMessage, true⟩]
          chatHistory := s.chatHistory ++
            [⟨Role.user, strTrim s.inputValue⟩, ⟨Role.model, closingMessage⟩] }, 0) ∧
    showSubmitButton (sendMessage env s).1.transcription false false = true := by
  have hneg : ¬(strTrim s.inputValue = "" ∨ s.isLoading = true) := by
    rintro (hh | hh)
    · exact h3 hh
    · rw [h4] at hh
      exact Bool.false_ne_true hh
  have hcond : (strContains (lastBotMessage s.transcription) isThatCorrect &&
      isConfirmationAnswer (strTrim s.inputValue)) = true := by
    rw [h1, h2]
    rfl
  have hmain : sendMessage env s =
      ({ s with
          inputValue := ""
          error := none
          transcription := s.transcription ++
            [⟨Speaker.user, strTrim s.inputValue, true⟩,
             ⟨Speaker.bot, closingMessage, true⟩]
          chatHistory := s.chatHistory ++
            [⟨Role.user, strTrim s.inputValue⟩, ⟨Role.model, closingMessage⟩] }, 0) := by
    unfold sendMessage
    rw [if_neg hneg]
    dsimp only
    rw [if_pos hcond]
  refine ⟨hmain, ?_⟩
  rw [hmain]
  have hthx : strContains closingMessage thankYouLine = true := by decide
  simp [showSubmitButton, botSaidThankYou, List.any_append, List.length_append, hthx]

/-- Witness for C9 at the concrete final-confirmation scenario: the user
replies "yes", the closing line is appended with no model request, and the
submit button condition holds. -/
theorem confirm_appends_closing_witness :
    strContains (lastBotMessage wConfirmState.transcription) isThatCorrect = true ∧
    isConfirmationAnswer (strTrim wConfirmState.inputValue) = true ∧
    (sendMessage wChatEnv wConfirmState).2 = 0 ∧
    showSubmitButton (sendMessage wChatEnv wConfirmState).1.transcription false false = true :=
  ⟨by decide, by decide,
   by rw [(confirm_appends_closing wChatEnv wConfirmState (by decide) (by decide)
      (by decide) rfl).1],
   (confirm_appends_closing wChatEnv wConfirmState (by decide) (by decide)
      (by decide) rfl).2⟩

/-- Witness for C6 at the concrete `{ok: false, status: 502}` relay
response. -/
theorem relay_failure_recoverable_witness :
    wRelay502.bodyOk = false ∧
    (handleDataSubmissionText wEnvFail ⟨false, false, none, false⟩).1.error
      = some (webhookFailMsg wRelay502) ∧
    (handleDataSubmissionText wEnvFail ⟨false, false, none, false⟩).1.showFeedback = false ∧
    (handleDataSubmissionVoice wEnvFail wVoiceIdle).1.error = some (webhookFailMsg wRelay502) :=
  ⟨rfl,
   (relay_failure_recoverable wEnvFail ⟨false, false, none, false⟩ wVoiceIdle wRelay502
      rfl rfl rfl rfl rfl rfl rfl).1,
   (relay_failure_recoverable wEnvFail ⟨false, false, none, false⟩ wVoiceIdle wRelay502
      rfl rfl rfl rfl rfl rfl rfl).2.1,
   (relay_failure_recoverable wEnvFail ⟨false, false, none, false⟩ wVoiceIdle wRelay502
      rfl rfl rfl rfl rfl rfl rfl).2.2.2.2.2.1⟩

end JHN
